import Mathlib

/-!
Verification of the streaming codec wrapper in `src/stream.rs` (brotli2-rs).

The file under verification is a thin, safe wrapper around an external codec
engine (the `brotli_sys` C bindings).  The engine itself is an external
collaborator: each engine call is modelled by a record of the values the
engine writes back (result code, remaining `available_in` / `available_out`
counters, boolean queries), and the wrapper's own logic — slice-view
advancement, status derivation, return-code mapping — is translated from the
Rust source as pure functions over those records.

Byte buffers are `List Nat`; a slice view update such as
`*input = &input[input.len() - available_in..]` becomes
`input.drop (input.length - availableIn)`.
-/

/-- Compression operation passed to `Compress::compress` (enum `CompressOp`). -/
inductive CompressOp where
  | Process
  | Flush
  | Finish
  | EmitMetadata
deriving DecidableEq, Repr

/-- Opaque error from compressing or decompressing (struct `Error(())`):
it carries a unit payload and nothing else. -/
structure Error where
deriving DecidableEq, Repr

/-- Completion indication of a compression operation (enum `CoStatus`). -/
inductive CoStatus where
  | Finished
  | Unfinished
deriving DecidableEq, Repr

/-- Status results returned from decompressing (enum `DeStatus`). -/
inductive DeStatus where
  | Finished
  | NeedInput
  | NeedOutput
deriving DecidableEq, Repr

/-- Constant `BROTLI_DECODER_RESULT_ERROR` of the engine bindings. -/
def BROTLI_DECODER_RESULT_ERROR : Nat := 0

/-- Constant `BROTLI_DECODER_RESULT_SUCCESS` of the engine bindings. -/
def BROTLI_DECODER_RESULT_SUCCESS : Nat := 1

/-- Constant `BROTLI_DECODER_RESULT_NEEDS_MORE_INPUT` of the engine bindings. -/
def BROTLI_DECODER_RESULT_NEEDS_MORE_INPUT : Nat := 2

/-- Constant `BROTLI_DECODER_RESULT_NEEDS_MORE_OUTPUT` of the engine bindings. -/
def BROTLI_DECODER_RESULT_NEEDS_MORE_OUTPUT : Nat := 3

/-- What one call to `BrotliDecoderDecompressStream` writes back: the result
code and the final values of the `available_in` / `available_out` counters
(the engine decrements them as it consumes input and writes output; `total_out`
is ignored by the wrapper). -/
structure DecoderStreamOutcome where
  rc : Nat
  availableIn : Nat
  availableOut : Nat
deriving DecidableEq, Repr

/-- What one call to `BrotliEncoderCompressStream` writes back, together with
the values the two state queries `BrotliEncoderHasMoreOutput` and
`BrotliEncoderIsFinished` would report immediately after it.  `rc = 0` is the
engine's failure signal. -/
structure EncoderStreamOutcome where
  rc : Nat
  availableIn : Nat
  availableOut : Nat
  hasMoreOutput : Nat
  isFinished : Nat
deriving DecidableEq, Repr

/-- Translation of `Decompress::rc`: maps the engine's decoder result code to
the wrapper's result vocabulary.  An unrecognized code makes the Rust code
panic; that unrecoverable branch is `none`. -/
def Decompress.rc (rc : Nat) : Option (Except Error DeStatus) :=
  if rc = BROTLI_DECODER_RESULT_ERROR then some (Except.error ⟨⟩)
  else if rc = BROTLI_DECODER_RESULT_SUCCESS then some (Except.ok DeStatus.Finished)
  else if rc = BROTLI_DECODER_RESULT_NEEDS_MORE_INPUT then some (Except.ok DeStatus.NeedInput)
  else if rc = BROTLI_DECODER_RESULT_NEEDS_MORE_OUTPUT then some (Except.ok DeStatus.NeedOutput)
  else none

/-- The three values a call to `Decompress::decompress` leaves with the
caller: the advanced input view, the advanced output view, and the mapped
result (`none` for the panic branch of `Decompress::rc`). -/
structure DecompressCall where
  input : List Nat
  output : List Nat
  result : Option (Except Error DeStatus)
deriving Repr

/-- Translation of `Decompress::decompress`.  The engine outcome `d` stands
for the values `BrotliDecoderDecompressStream` wrote back.  Exactly as in the
source, the two views are advanced from the counters before the result code
is inspected:
`*input = &input[input.len() - available_in..]` and
`*output = &mut mem::replace(output, &mut [])[out_len - available_out..]`. -/
def Decompress.decompress (input output : List Nat) (d : DecoderStreamOutcome) :
    DecompressCall :=
  { input := input.drop (input.length - d.availableIn)
    output := output.drop (output.length - d.availableOut)
    result := Decompress.rc d.rc }

/-- The three values a call to `Compress::compress` leaves with the caller. -/
structure CompressCall where
  input : List Nat
  output : List Nat
  result : Except Error CoStatus
deriving Repr

/-- Translation of `Compress::compress`.  The engine outcome `e` stands for
the values written back by `BrotliEncoderCompressStream` plus the two state
queries.  The views are advanced before the `r == 0` error check, and the
status for a successful call is derived exactly in the source's cascade:
`Process` is always `Finished`; otherwise `Unfinished` if `available_in != 0`,
else if `BrotliEncoderHasMoreOutput == 1`, else if the operation is `Finish`
and `BrotliEncoderIsFinished == 0`; otherwise `Finished`. -/
def Compress.compress (op : CompressOp) (input output : List Nat)
    (e : EncoderStreamOutcome) : CompressCall :=
  { input := input.drop (input.length - e.availableIn)
    output := output.drop (output.length - e.availableOut)
    result :=
      if e.rc = 0 then Except.error ⟨⟩
      else Except.ok (
        if op = CompressOp.Process then CoStatus.Finished
        else if e.availableIn ≠ 0 then CoStatus.Unfinished
        else if e.hasMoreOutput = 1 then CoStatus.Unfinished
        else if op = CompressOp.Finish ∧ e.isFinished = 0 then CoStatus.Unfinished
        else CoStatus.Finished) }

/-- What a one-shot engine call (`BrotliDecoderDecompress` or
`BrotliEncoderCompress`) writes back: its success flag (`rc = 0` is failure)
and the value left in the in/out size parameter, i.e. the number of bytes
written. -/
structure OneShotOutcome where
  rc : Nat
  size : Nat
deriving DecidableEq, Repr

/-- Translation of `decompress_buf`.  The output view is narrowed to the
written prefix (`*output = &mut mem::replace(output, &mut [])[..size]`)
before the success flag is inspected; on success the byte count is returned,
otherwise `Error`. -/
def decompress_buf (_input output : List Nat) (o : OneShotOutcome) :
    List Nat × Except Error Nat :=
  (output.take o.size, if o.rc = 0 then Except.error ⟨⟩ else Except.ok o.size)

/-- Parameters passed to the compression routines (struct `CompressParams`);
the four `u32` fields are carried as `Nat`. -/
structure CompressParams where
  mode : Nat
  quality : Nat
  lgwin : Nat
  lgblock : Nat
deriving DecidableEq, Repr

/-- Translation of `compress_buf`: identical narrowing and error mapping as
`decompress_buf`, with the parameters forwarded to the engine call. -/
def compress_buf (_params : CompressParams) (_input output : List Nat)
    (o : OneShotOutcome) : List Nat × Except Error Nat :=
  (output.take o.size, if o.rc = 0 then Except.error ⟨⟩ else Except.ok o.size)

/-- Translation of `CompressParams::get_lgblock_readable`: `1usize << self.lgblock`. -/
def CompressParams.get_lgblock_readable (p : CompressParams) : Nat :=
  1 <<< p.lgblock

/-- Translation of `CompressParams::get_lgblock`. -/
def CompressParams.get_lgblock (p : CompressParams) : Nat :=
  p.lgblock

/-- Translation of `CompressParams::get_lgwin_readable`: `1usize << self.lgwin`. -/
def CompressParams.get_lgwin_readable (p : CompressParams) : Nat :=
  1 <<< p.lgwin

/-- Translation of `CompressParams::get_lgwin`. -/
def CompressParams.get_lgwin (p : CompressParams) : Nat :=
  p.lgwin

/-- Translation of `error::Error::description` for `Error`: the fixed string. -/
def Error.description (_ : Error) : String :=
  "brotli error"

/-- Translation of the `fmt::Display` impl for `Error`: it formats exactly
`error::Error::description(self)`. -/
def Error.display (e : Error) : String :=
  e.description

/-- Translation of `Decompress::take_output`.  The engine's
`BrotliDecoderTakeOutput` is modelled as a state-passing function
`eng : σ → Nat → List Nat × σ` that, given the internal decoder state and the
requested limit (`0` meaning unlimited, after `unwrap_or(0)`), returns the
drained bytes (the slice at the returned pointer, whose length is the value
written back into `size_limit`) and the decoder state afterwards.  With
`Some(0)` the wrapper returns `None` before consulting the engine; an engine
answer of length `0` is mapped to `None`. -/
def Decompress.take_output {σ : Type} (eng : σ → Nat → List Nat × σ) (st : σ)
    (size_limit : Option Nat) : Option (List Nat) × σ :=
  if size_limit = some 0 then (none, st)
  else
    let r := eng st (size_limit.getD 0)
    if r.1.length = 0 then (none, r.2) else (some r.1, r.2)

/-- Translation of `Compress::take_output`: the same body as the decoder's
drain, over `BrotliEncoderTakeOutput` and the encoder state. -/
def Compress.take_output {σ : Type} (eng : σ → Nat → List Nat × σ) (st : σ)
    (size_limit : Option Nat) : Option (List Nat) × σ :=
  if size_limit = some 0 then (none, st)
  else
    let r := eng st (size_limit.getD 0)
    if r.1.length = 0 then (none, r.2) else (some r.1, r.2)

/-- C1: for a successful `Compress::compress` call with a non-`Process`
operation, the returned status is `Unfinished` exactly when input bytes
remain unconsumed, or the engine reports `BrotliEncoderHasMoreOutput`, or the
operation is `Finish` and the engine reports it is not finished; otherwise
the status is `Finished`.  The hypothesis `hin` is the engine contract that
`available_in` only decreases (without it the Rust slice re-borrow would
panic). -/
theorem compress_nonprocess_status (op : CompressOp) (input output : List Nat)
    (e : EncoderStreamOutcome) (hop : op ≠ CompressOp.Process) (hrc : e.rc ≠ 0)
    (hin : e.availableIn ≤ input.length) :
    ((Compress.compress op input output e).result = Except.ok CoStatus.Unfinished ↔
      ((Compress.compress op input output e).input ≠ [] ∨ e.hasMoreOutput = 1 ∨
        (op = CompressOp.Finish ∧ e.isFinished = 0))) ∧
    ((Compress.compress op input output e).result = Except.ok CoStatus.Unfinished ∨
      (Compress.compress op input output e).result = Except.ok CoStatus.Finished) := by
  have hlen : (Compress.compress op input output e).input.length = e.availableIn := by
    simp [Compress.compress, Nat.sub_sub_self hin]
  have hne : ((Compress.compress op input output e).input ≠ []) ↔ e.availableIn ≠ 0 := by
    rw [Ne, ← List.length_eq_zero, hlen]
  have hres : (Compress.compress op input output e).result =
      Except.ok (if e.availableIn ≠ 0 ∨ e.hasMoreOutput = 1 ∨
          (op = CompressOp.Finish ∧ e.isFinished = 0)
        then CoStatus.Unfinished else CoStatus.Finished) := by
    by_cases h1 : e.availableIn ≠ 0
    · simp [Compress.compress, hrc, hop, h1]
    · by_cases h2 : e.hasMoreOutput = 1
      · simp [Compress.compress, hrc, hop, h1, h2]
      · by_cases h3 : op = CompressOp.Finish ∧ e.isFinished = 0
        · simp [Compress.compress, hrc, hop, h1, h2, h3]
        · simp [Compress.compress, hrc, hop, h1, h2, h3]
  rw [hres, hne]
  constructor
  · split_ifs with hc
    · simp [hc]
    · simp [hc]
  · split_ifs <;> simp

/-- Witness for C1 at a concrete engine outcome: op `Flush`, one byte of
input left unconsumed, so the status is `Unfinished`. -/
theorem compress_nonprocess_status_witness :
    ((Compress.compress CompressOp.Flush [9] [] ⟨1, 1, 0, 0, 0⟩).result =
        Except.ok CoStatus.Unfinished ↔
      ((Compress.compress CompressOp.Flush [9] [] ⟨1, 1, 0, 0, 0⟩).input ≠ [] ∨
        (0 : Nat) = 1 ∨ (CompressOp.Flush = CompressOp.Finish ∧ (0 : Nat) = 0))) ∧
    ((Compress.compress CompressOp.Flush [9] [] ⟨1, 1, 0, 0, 0⟩).result =
        Except.ok CoStatus.Unfinished ∨
      (Compress.compress CompressOp.Flush [9] [] ⟨1, 1, 0, 0, 0⟩).result =
        Except.ok CoStatus.Finished) :=
  compress_nonprocess_status CompressOp.Flush [9] [] ⟨1, 1, 0, 0, 0⟩
    (by decide) (by decide) (by decide)

/-- C2: a `Compress::compress` call with operation `Process` that does not
fail always returns `Finished`, regardless of how much input was consumed. -/
theorem compress_process_always_finished (input output : List Nat)
    (e : EncoderStreamOutcome) (hrc : e.rc ≠ 0) :
    (Compress.compress CompressOp.Process input output e).result =
      Except.ok CoStatus.Finished := by
  simp [Compress.compress, hrc]

/-- Witness for C2: a `Process` call that consumed none of its two input
bytes still reports `Finished`. -/
theorem compress_process_always_finished_witness :
    (Compress.compress CompressOp.Process [1, 2] [0] ⟨1, 2, 1, 1, 0⟩).result =
      Except.ok CoStatus.Finished :=
  compress_process_always_finished [1, 2] [0] ⟨1, 2, 1, 1, 0⟩ (by decide)

/-- C3: after a `Decompress::decompress` or `Compress::compress` call, the
original view length minus the remaining view length equals the byte count
the engine reported (initial counter minus final counter), the reported
counts never exceed the original lengths, and the remaining views are
suffixes of the original views.  The hypotheses are the engine contract that
the `available_in` / `available_out` counters only decrease. -/
theorem step_buffer_accounting (input output : List Nat) (op : CompressOp)
    (d : DecoderStreamOutcome) (e : EncoderStreamOutcome)
    (hdi : d.availableIn ≤ input.length) (hdo : d.availableOut ≤ output.length)
    (hei : e.availableIn ≤ input.length) (heo : e.availableOut ≤ output.length) :
    (input.length - (Decompress.decompress input output d).input.length =
        input.length - d.availableIn ∧
      output.length - (Decompress.decompress input output d).output.length =
        output.length - d.availableOut ∧
      input.length - d.availableIn ≤ input.length ∧
      output.length - d.availableOut ≤ output.length ∧
      (Decompress.decompress input output d).input <:+ input ∧
      (Decompress.decompress input output d).output <:+ output) ∧
    (input.length - (Compress.compress op input output e).input.length =
        input.length - e.availableIn ∧
      output.length - (Compress.compress op input output e).output.length =
        output.length - e.availableOut ∧
      input.length - e.availableIn ≤ input.length ∧
      output.length - e.availableOut ≤ output.length ∧
      (Compress.compress op input output e).input <:+ input ∧
      (Compress.compress op input output e).output <:+ output) := by
  have key : ∀ (l : List Nat) (a : Nat), a ≤ l.length →
      l.length - (l.drop (l.length - a)).length = l.length - a := by
    intro l a h
    simp [List.length_drop, Nat.sub_sub_self (Nat.sub_le l.length a)]
  exact ⟨⟨key input d.availableIn hdi, key output d.availableOut hdo,
      Nat.sub_le _ _, Nat.sub_le _ _,
      List.drop_suffix _ _, List.drop_suffix _ _⟩,
    ⟨key input e.availableIn hei, key output e.availableOut heo,
      Nat.sub_le _ _, Nat.sub_le _ _,
      List.drop_suffix _ _, List.drop_suffix _ _⟩⟩

/-- Witness for C3 at concrete views and engine outcomes. -/
theorem step_buffer_accounting_witness :
    (([7] : List Nat).length - (Decompress.decompress [7] [5] ⟨1, 0, 1⟩).input.length =
        ([7] : List Nat).length - 0 ∧
      ([5] : List Nat).length - (Decompress.decompress [7] [5] ⟨1, 0, 1⟩).output.length =
        ([5] : List Nat).length - 1 ∧
      ([7] : List Nat).length - 0 ≤ ([7] : List Nat).length ∧
      ([5] : List Nat).length - 1 ≤ ([5] : List Nat).length ∧
      (Decompress.decompress [7] [5] ⟨1, 0, 1⟩).input <:+ [7] ∧
      (Decompress.decompress [7] [5] ⟨1, 0, 1⟩).output <:+ [5]) ∧
    (([7] : List Nat).length -
          (Compress.compress CompressOp.Finish [7] [5] ⟨1, 0, 1, 0, 1⟩).input.length =
        ([7] : List Nat).length - 0 ∧
      ([5] : List Nat).length -
          (Compress.compress CompressOp.Finish [7] [5] ⟨1, 0, 1, 0, 1⟩).output.length =
        ([5] : List Nat).length - 1 ∧
      ([7] : List Nat).length - 0 ≤ ([7] : List Nat).length ∧
      ([5] : List Nat).length - 1 ≤ ([5] : List Nat).length ∧
      (Compress.compress CompressOp.Finish [7] [5] ⟨1, 0, 1, 0, 1⟩).input <:+ [7] ∧
      (Compress.compress CompressOp.Finish [7] [5] ⟨1, 0, 1, 0, 1⟩).output <:+ [5]) :=
  step_buffer_accounting [7] [5] CompressOp.Finish ⟨1, 0, 1⟩ ⟨1, 0, 1, 0, 1⟩
    (by decide) (by decide) (by decide) (by decide)

/-- C5: in `compress_buf` and `decompress_buf`, engine success yields
`Ok n` with the output view narrowed to exactly the written prefix of
length `n`, and engine failure yields `Err`.  The hypothesis is the engine
contract that the reported size fits the provided output region. -/
theorem buf_result_contract (params : CompressParams) (input output : List Nat)
    (o : OneShotOutcome) (hsz : o.size ≤ output.length) :
    (o.rc ≠ 0 →
      compress_buf params input output o = (output.take o.size, Except.ok o.size) ∧
      (compress_buf params input output o).1.length = o.size ∧
      decompress_buf input output o = (output.take o.size, Except.ok o.size) ∧
      (decompress_buf input output o).1.length = o.size) ∧
    (o.rc = 0 →
      (compress_buf params input output o).2 = Except.error ⟨⟩ ∧
      (decompress_buf input output o).2 = Except.error ⟨⟩) := by
  constructor
  · intro h
    refine ⟨by simp [compress_buf, h], ?_, by simp [decompress_buf, h], ?_⟩ <;>
      simp [compress_buf, decompress_buf, List.length_take, Nat.min_eq_left hsz]
  · intro h
    exact ⟨by simp [compress_buf, h], by simp [decompress_buf, h]⟩

/-- Witness for C5: a successful one-shot call that wrote one byte into a
two-byte output region. -/
theorem buf_result_contract_witness :
    compress_buf ⟨0, 11, 22, 0⟩ [1] [0, 0] ⟨1, 1⟩ = ([0], Except.ok 1) ∧
    (compress_buf ⟨0, 11, 22, 0⟩ [1] [0, 0] ⟨1, 1⟩).1.length = 1 ∧
    decompress_buf [1] [0, 0] ⟨1, 1⟩ = ([0], Except.ok 1) ∧
    (decompress_buf [1] [0, 0] ⟨1, 1⟩).1.length = 1 :=
  (buf_result_contract ⟨0, 11, 22, 0⟩ [1] [0, 0] ⟨1, 1⟩ (by decide)).1 (by decide)

/-- C6 counterexample: the fixed description carried by `Error` is
"brotli error", not "codec error" as the claim states. -/
theorem error_description_ne_codec :
    Error.description ⟨⟩ = "brotli error" ∧ Error.display ⟨⟩ = "brotli error" ∧
    ¬(Error.description ⟨⟩ = "codec error") ∧ ¬(Error.display ⟨⟩ = "codec error") := by
  refine ⟨rfl, rfl, ?_, ?_⟩ <;> decide

/-- C6 amended: every `Error` value stringifies, via `Display` and via the
`description` accessor, to the fixed text "brotli error", and the type
carries no further structured detail (all `Error` values are equal). -/
theorem error_description_fixed (e : Error) :
    Error.display e = "brotli error" ∧ Error.description e = "brotli error" ∧
    ∀ e' : Error, e = e' :=
  ⟨rfl, rfl, fun _ => rfl⟩

/-- C7: for any session state, `take_output` with limit `Some 0` returns
`None` immediately and leaves the engine state untouched (the engine drain
call is never made); and whenever the engine has no buffered bytes left to
hand out, `take_output` returns `None`.  Holds for the decompressor and the
compressor drains alike. -/
theorem take_output_zero_and_drained {σ : Type} (eng : σ → Nat → List Nat × σ)
    (st : σ) (lim : Option Nat) :
    Decompress.take_output eng st (some 0) = (none, st) ∧
    Compress.take_output eng st (some 0) = (none, st) ∧
    ((eng st (lim.getD 0)).1 = [] →
      (Decompress.take_output eng st lim).1 = none ∧
      (Compress.take_output eng st lim).1 = none) := by
  refine ⟨by simp [Decompress.take_output], by simp [Compress.take_output], fun h => ?_⟩
  by_cases h0 : lim = some 0
  · simp [Decompress.take_output, Compress.take_output, h0]
  · constructor <;> simp [Decompress.take_output, Compress.take_output, h0, h]

/-- Witness for C7: an engine whose internal buffer is empty. -/
theorem take_output_zero_and_drained_witness :
    Decompress.take_output (fun (s : Nat) (_ : Nat) => (([] : List Nat), s)) 0 (some 0) =
      (none, 0) ∧
    Compress.take_output (fun (s : Nat) (_ : Nat) => (([] : List Nat), s)) 0 (some 0) =
      (none, 0) ∧
    ((Decompress.take_output (fun (s : Nat) (_ : Nat) => (([] : List Nat), s)) 0 none).1 =
        none ∧
      (Compress.take_output (fun (s : Nat) (_ : Nat) => (([] : List Nat), s)) 0 none).1 =
        none) :=
  ⟨(take_output_zero_and_drained (fun s _ => ([], s)) 0 (some 0)).1,
    (take_output_zero_and_drained (fun s _ => ([], s)) 0 (some 0)).2.1,
    (take_output_zero_and_drained (fun s _ => ([], s)) 0 none).2.2 rfl⟩

/-- C8: the two readable accessors of `CompressParams` return `2 ^ lgwin`
and `2 ^ lgblock` for the stored fields, and being read accessors they do
not touch the parameter set.  The hypotheses bound the shift amounts by the
`usize` width, where the Rust shift agrees with exponentiation. -/
theorem params_readable_pow (p : CompressParams) (hw : p.lgwin < 64)
    (hb : p.lgblock < 64) :
    p.get_lgwin_readable = 2 ^ p.lgwin ∧ p.get_lgblock_readable = 2 ^ p.lgblock := by
  constructor <;>
    simp [CompressParams.get_lgwin_readable, CompressParams.get_lgblock_readable,
      Nat.shiftLeft_eq]

/-- Witness for C8 at the default parameter values (`lgwin = 22`). -/
theorem params_readable_pow_witness :
    (CompressParams.mk 0 11 22 0).get_lgwin_readable = 2 ^ 22 ∧
    (CompressParams.mk 0 11 22 0).get_lgblock_readable = 2 ^ 0 :=
  params_readable_pow ⟨0, 11, 22, 0⟩ (by decide) (by decide)

/-- C9: when any of the four fallible calls reports the engine's failure
code, the returned views have nevertheless been advanced (streaming calls)
or narrowed (one-shot calls) according to the counts the engine reported;
the error path performs no restoration of the pre-call views, because the
view updates happen before the result code is inspected. -/
theorem error_leaves_views_advanced (op : CompressOp) (input output : List Nat)
    (d : DecoderStreamOutcome) (e : EncoderStreamOutcome) (o : OneShotOutcome)
    (params : CompressParams) (hd : d.rc = BROTLI_DECODER_RESULT_ERROR)
    (he : e.rc = 0) (ho : o.rc = 0) :
    ((Decompress.decompress input output d).result = some (Except.error ⟨⟩) ∧
      (Decompress.decompress input output d).input =
        input.drop (input.length - d.availableIn) ∧
      (Decompress.decompress input output d).output =
        output.drop (output.length - d.availableOut)) ∧
    ((Compress.compress op input output e).result = Except.error ⟨⟩ ∧
      (Compress.compress op input output e).input =
        input.drop (input.length - e.availableIn) ∧
      (Compress.compress op input output e).output =
        output.drop (output.length - e.availableOut)) ∧
    ((decompress_buf input output o).2 = Except.error ⟨⟩ ∧
      (decompress_buf input output o).1 = output.take o.size) ∧
    ((compress_buf params input output o).2 = Except.error ⟨⟩ ∧
      (compress_buf params input output o).1 = output.take o.size) := by
  refine ⟨⟨?_, rfl, rfl⟩, ⟨?_, rfl, rfl⟩, ⟨?_, rfl⟩, ⟨?_, rfl⟩⟩
  · simp [Decompress.decompress, Decompress.rc, hd, BROTLI_DECODER_RESULT_ERROR]
  · simp [Compress.compress, he]
  · simp [decompress_buf, ho]
  · simp [compress_buf, ho]

/-- Witness for C9: failing calls on concrete views, each leaving the views
advanced past one consumed input byte and one written output byte. -/
theorem error_leaves_views_advanced_witness :
    ((Decompress.decompress [3, 4] [0, 0] ⟨0, 1, 1⟩).result = some (Except.error ⟨⟩) ∧
      (Decompress.decompress [3, 4] [0, 0] ⟨0, 1, 1⟩).input = [4] ∧
      (Decompress.decompress [3, 4] [0, 0] ⟨0, 1, 1⟩).output = [0]) ∧
    ((Compress.compress CompressOp.Finish [3, 4] [0, 0] ⟨0, 1, 1, 0, 0⟩).result =
        Except.error ⟨⟩ ∧
      (Compress.compress CompressOp.Finish [3, 4] [0, 0] ⟨0, 1, 1, 0, 0⟩).input = [4] ∧
      (Compress.compress CompressOp.Finish [3, 4] [0, 0] ⟨0, 1, 1, 0, 0⟩).output = [0]) ∧
    ((decompress_buf [3, 4] [0, 0] ⟨0, 1⟩).2 = Except.error ⟨⟩ ∧
      (decompress_buf [3, 4] [0, 0] ⟨0, 1⟩).1 = [0]) ∧
    ((compress_buf ⟨0, 11, 22, 0⟩ [3, 4] [0, 0] ⟨0, 1⟩).2 = Except.error ⟨⟩ ∧
      (compress_buf ⟨0, 11, 22, 0⟩ [3, 4] [0, 0] ⟨0, 1⟩).1 = [0]) :=
  error_leaves_views_advanced CompressOp.Finish [3, 4] [0, 0] ⟨0, 1, 1⟩
    ⟨0, 1, 1, 0, 0⟩ ⟨0, 1⟩ ⟨0, 11, 22, 0⟩ (by decide) (by decide) (by decide)

/-- C10: with limit `Some n`, `n > 0`, both drains return `None` or a slice
of length between `1` and `n` — never `Some` of an empty slice — and with
limit `None` any returned slice is likewise non-empty.  The hypothesis `hb`
is the engine contract that the drain never hands out more than the
requested limit. -/
theorem take_output_nonempty_bounded {σ : Type} (eng : σ → Nat → List Nat × σ)
    (st : σ) (n : Nat) (hn : 0 < n) (hb : (eng st n).1.length ≤ n) :
    ((Decompress.take_output eng st (some n)).1 = none ∨
      ∃ s, (Decompress.take_output eng st (some n)).1 = some s ∧
        1 ≤ s.length ∧ s.length ≤ n) ∧
    ((Compress.take_output eng st (some n)).1 = none ∨
      ∃ s, (Compress.take_output eng st (some n)).1 = some s ∧
        1 ≤ s.length ∧ s.length ≤ n) ∧
    (∀ s, (Decompress.take_output eng st none).1 = some s → 1 ≤ s.length) ∧
    (∀ s, (Compress.take_output eng st none).1 = some s → 1 ≤ s.length) := by
  have hne : (some n : Option Nat) ≠ some 0 := by simp [hn.ne']
  refine ⟨?_, ?_, ?_, ?_⟩
  · by_cases hz : (eng st n).1.length = 0
    · exact Or.inl (by simp [Decompress.take_output, hne, hz])
    · exact Or.inr ⟨(eng st n).1, by simp [Decompress.take_output, hne, hz],
        Nat.one_le_iff_ne_zero.mpr hz, hb⟩
  · by_cases hz : (eng st n).1.length = 0
    · exact Or.inl (by simp [Compress.take_output, hne, hz])
    · exact Or.inr ⟨(eng st n).1, by simp [Compress.take_output, hne, hz],
        Nat.one_le_iff_ne_zero.mpr hz, hb⟩
  · intro s hs
    by_cases hz : (eng st 0).1.length = 0
    · simp [Decompress.take_output, hz] at hs
    · simp [Decompress.take_output, hz] at hs
      rw [← hs]
      exact Nat.one_le_iff_ne_zero.mpr hz
  · intro s hs
    by_cases hz : (eng st 0).1.length = 0
    · simp [Compress.take_output, hz] at hs
    · simp [Compress.take_output, hz] at hs
      rw [← hs]
      exact Nat.one_le_iff_ne_zero.mpr hz

/-- Witness for C10: an engine holding one buffered byte, drained with
limit `Some 1` and with limit `None`. -/
theorem take_output_nonempty_bounded_witness :
    ((Decompress.take_output (fun (s : Nat) (_ : Nat) => (([4] : List Nat), s)) 0
          (some 1)).1 = none ∨
      ∃ s, (Decompress.take_output (fun (s : Nat) (_ : Nat) => (([4] : List Nat), s)) 0
          (some 1)).1 = some s ∧ 1 ≤ s.length ∧ s.length ≤ 1) ∧
    ((Compress.take_output (fun (s : Nat) (_ : Nat) => (([4] : List Nat), s)) 0
          (some 1)).1 = none ∨
      ∃ s, (Compress.take_output (fun (s : Nat) (_ : Nat) => (([4] : List Nat), s)) 0
          (some 1)).1 = some s ∧ 1 ≤ s.length ∧ s.length ≤ 1) ∧
    (∀ s, (Decompress.take_output (fun (s : Nat) (_ : Nat) => (([4] : List Nat), s)) 0
        none).1 = some s → 1 ≤ s.length) ∧
    (∀ s, (Compress.take_output (fun (s : Nat) (_ : Nat) => (([4] : List Nat), s)) 0
        none).1 = some s → 1 ≤ s.length) :=
  take_output_nonempty_bounded (fun (s : Nat) (_ : Nat) => (([4] : List Nat), s)) 0 1
    (by decide) (by decide)
